import Mathlib

set_option maxHeartbeats 1000000
set_option maxRecDepth 100000

deriving instance DecidableEq for Except

namespace SqlDates


/-- Gregorian leap-year rule, as in Python's `calendar.isleap`. -/
def isleap (y : Nat) : Bool :=
  y % 4 == 0 && (y % 100 != 0 || y % 400 == 0)

/-- Number of days of month `m` of year `y` (Gregorian calendar, as used by
Python `datetime.date`). -/
def daysInMonth (y m : Nat) : Nat :=
  if m = 2 then (if isleap y then 29 else 28)
  else if m = 4 ∨ m = 6 ∨ m = 9 ∨ m = 11 then 30
  else 31

/-- A calendar date triple, modelling Python `datetime.date`. -/
structure Date where
  year : Nat
  month : Nat
  day : Nat
deriving DecidableEq, Repr

instance instBEqDate : BEq Date :=
  ⟨fun a b => a.year == b.year && (a.month == b.month && a.day == b.day)⟩

instance : LawfulBEq Date where
  eq_of_beq {a b} h := by
    obtain ⟨a1, a2, a3⟩ := a
    obtain ⟨b1, b2, b3⟩ := b
    simp only [instBEqDate, BEq.beq, Bool.and_eq_true, beq_iff_eq,
      decide_eq_true_eq] at h
    obtain ⟨h1, h2, h3⟩ := h
    subst h1; subst h2; subst h3; rfl
  rfl {a} := by
    obtain ⟨a1, a2, a3⟩ := a
    simp [instBEqDate, BEq.beq]

/-- A date triple that Python's `datetime.date` accepts (we do not impose
Python's upper bound of year 9999, which none of the claims reach). -/
def Valid (d : Date) : Prop :=
  1 ≤ d.year ∧ 1 ≤ d.month ∧ d.month ≤ 12 ∧ 1 ≤ d.day ∧ d.day ≤ daysInMonth d.year d.month

instance (d : Date) : Decidable (Valid d) := by
  unfold Valid
  exact inferInstance

/-- The year count entering the civil day-number formula: years are counted
as starting on March 1, so January and February belong to the previous
formula-year. -/
def shiftedYear (d : Date) : Nat :=
  if d.month ≤ 2 then d.year - 1 else d.year

/-- Day number of a date: days since 0000-03-01 in the proleptic Gregorian
calendar (the standard "days from civil" computation).  On valid dates this
models the linear order, subtraction and weekday of Python dates. -/
def Date.toNum (d : Date) : Nat :=
  let y := shiftedYear d
  let mp := if d.month ≤ 2 then d.month + 9 else d.month - 3
  365 * y + y / 4 - y / 100 + y / 400 + (153 * mp + 2) / 5 + d.day - 1

/-- Calendar successor of a date (`d + timedelta(days=1)`). -/
def nextDate (d : Date) : Date :=
  if d.day < daysInMonth d.year d.month then ⟨d.year, d.month, d.day + 1⟩
  else if d.month < 12 then ⟨d.year, d.month + 1, 1⟩
  else ⟨d.year + 1, 1, 1⟩

/-- Calendar predecessor of a date (`d - timedelta(days=1)`). -/
def prevDate (d : Date) : Date :=
  if 2 ≤ d.day then ⟨d.year, d.month, d.day - 1⟩
  else if 2 ≤ d.month then ⟨d.year, d.month - 1, daysInMonth d.year (d.month - 1)⟩
  else ⟨d.year - 1, 12, 31⟩

/-- `d + timedelta(days=k)` for `k ≥ 0`. -/
def addDays (d : Date) : Nat → Date
  | 0 => d
  | k + 1 => nextDate (addDays d k)

/-- Model of Python `date.isoweekday()`: Monday = 1 … Sunday = 7.
Day number 0 (0000-03-01) is a Wednesday in the proleptic Gregorian
calendar, so `toNum % 7 = 0` means Wednesday. -/
def isoweekday (d : Date) : Nat := (d.toNum + 2) % 7 + 1

/-- `dates.to_sql_weekday`: SQL day-of-week, Sunday = 1 … Saturday = 7,
computed from `isoweekday` exactly as in the source
(`this_date.isoweekday() % 7 + 1`). -/
def to_sql_weekday (d : Date) : Nat := isoweekday d % 7 + 1

/-- `dates.is_last_day_of_month`: the next day is in a different month. -/
def is_last_day_of_month (d : Date) : Bool :=
  (nextDate d).month != d.month

/-- `dates.is_weekend`: SQL day-of-week 1 (Sunday) or 7 (Saturday). -/
def is_weekend (day_of_week : Nat) : Bool :=
  day_of_week == 1 || day_of_week == 7

/-- `dates.nth_weekday_of_month`: the date of the n-th occurrence of the
given SQL weekday in the given month/year.  The Python offset
`(weekday - first_weekday + 7) % 7` is over integers in `-6..6` before the
`+ 7`, so the natural-number form `(weekday + 7 - first_weekday) % 7` below
is the same number. -/
def nth_weekday_of_month (n weekday month year : Nat) : Date :=
  let first_day : Date := ⟨year, month, 1⟩
  let first_weekday := to_sql_weekday first_day
  let days_offset := (weekday + 7 - first_weekday) % 7
  addDays first_day (days_offset + (n - 1) * 7)

/-- `dates.is_fixed_holiday`: observed New Year's Day, Independence Day and
Christmas, including the Friday/Monday weekend shifts, translated clause by
clause from the source. -/
def is_fixed_holiday (d : Date) : Bool :=
  let day_of_week := to_sql_weekday d
  let is_weekday := decide (1 < day_of_week) && decide (day_of_week < 7)
  let is_friday := day_of_week == 6
  let is_monday := day_of_week == 2
  -- New Year's Day
  ((d.month == 1 && d.day == 1 && is_weekday)
    || (d.month == 12 && d.day == 31 && is_friday)
    || (d.month == 1 && d.day == 2 && is_monday))
  -- Independence Day
  || ((d.month == 7 && d.day == 4 && is_weekday)
    || (d.month == 7 && d.day == 3 && is_friday)
    || (d.month == 7 && d.day == 5 && is_monday))
  -- Christmas Day
  || ((d.month == 12 && d.day == 25 && is_weekday)
    || (d.month == 12 && d.day == 24 && is_friday)
    || (d.month == 12 && d.day == 26 && is_monday))

/-- `dates.is_floating_holiday`: MLK Day (years ≥ 1986 only), Labor Day,
Thanksgiving, the day after Thanksgiving, and Memorial Day. -/
def is_floating_holiday (d : Date) : Bool :=
  let year := d.year
  let day_of_week := to_sql_weekday d
  let is_monday := day_of_week == 2
  let mlk_day := nth_weekday_of_month 3 2 1 year
  let labor_day := nth_weekday_of_month 1 2 9 year
  let thanksgiving := nth_weekday_of_month 4 5 11 year
  let day_after_thanksgiving := nth_weekday_of_month 4 6 11 year
  let memorial_day := d.month == 5 && is_monday && decide (25 ≤ d.day)
  (d == labor_day || d == thanksgiving || d == day_after_thanksgiving)
    || (d == mlk_day && decide (1986 ≤ year))
    || memorial_day

/-- `dates.is_holiday`. -/
def is_holiday (d : Date) : Bool :=
  is_fixed_holiday d || is_floating_holiday d

/-- `dates.is_work_day`. -/
def is_work_day (d : Date) : Bool :=
  !(is_holiday d || is_weekend (to_sql_weekday d))

/-- Days of year `y` strictly before month `m` (cumulative month lengths),
modelling the `tm_yday` computation of Python's `timetuple()`. -/
def daysBeforeMonth (y m : Nat) : Nat :=
  let l := if isleap y then 1 else 0
  match m with
  | 1 => 0
  | 2 => 31
  | 3 => 59 + l
  | 4 => 90 + l
  | 5 => 120 + l
  | 6 => 151 + l
  | 7 => 181 + l
  | 8 => 212 + l
  | 9 => 243 + l
  | 10 => 273 + l
  | 11 => 304 + l
  | 12 => 334 + l
  | _ => 0

/-- `dates.get_cy_day`: day of the calendar year (`timetuple().tm_yday`,
1-based). -/
def get_cy_day (d : Date) : Nat :=
  daysBeforeMonth d.year d.month + d.day

/-- `dates.get_cy_week`: `int(strftime("%U")) + 1`.  C `strftime`'s `%U` is
`(tm_yday + 7 - tm_wday) / 7` with 0-based `tm_yday` and `tm_wday` counting
days since Sunday; `isoweekday % 7` is exactly that Sunday-based weekday. -/
def get_cy_week (d : Date) : Nat :=
  (get_cy_day d - 1 + 7 - isoweekday d % 7) / 7 + 1

/-- `dates.get_cy_quarter`. -/
def get_cy_quarter (month : Nat) : Nat :=
  (month - 1) / 3 + 1

/-- One row of the `Dates` table, with the columns the verified claims
refer to (the remaining columns of `create_dates` — names, quarter,
day-of-year — are straightforward per-row applications of the functions
above and are omitted from the row record). -/
structure DateRow where
  dateDate : Date
  dateYear : Nat
  dateDayOfWeek : Nat
  isWeekend : Bool
  isHoliday : Bool
  isWorkDay : Bool
  isPayDay : Bool
  cyWeek : Nat
deriving DecidableEq, Repr

/-- The row `create_dates` builds for one date: each column is the
corresponding per-date function of the source, and `IsPayDay` starts
`False`. -/
def mkDateRow (d : Date) : DateRow :=
  { dateDate := d
    dateYear := d.year
    dateDayOfWeek := to_sql_weekday d
    isWeekend := is_weekend (to_sql_weekday d)
    isHoliday := is_holiday d
    isWorkDay := is_work_day d
    isPayDay := false
    cyWeek := get_cy_week d }

/-- `n` consecutive dates starting at `d` (model of `pd.date_range`). -/
def dateListFrom (d : Date) : Nat → List Date
  | 0 => []
  | n + 1 => d :: dateListFrom (nextDate d) n

/-- `dates.create_dates`: one row per day of the inclusive range, in
ascending order (empty when `end < start`). -/
def create_dates (start stop : Date) : List DateRow :=
  (dateListFrom start (stop.toNum + 1 - start.toNum)).map mkDateRow

/-- The day number of the largest date of the table
(`dates["DateDate"].max()`). -/
def maxDateN (rows : List DateRow) : Nat :=
  (rows.map (fun r => r.dateDate.toNum)).foldr max 0

/-- The in-loop reassignment of `current` in `dates.fill_pay_days`: shift
the pay date back one day if it falls on a holiday, except for Black
Friday. -/
def fillAdj (current : Date) : Date :=
  let is_bf := current == nth_weekday_of_month 4 6 11 current.year
  if is_holiday current && !is_bf then prevDate current else current

/-- The loop of `dates.fill_pay_days`, one constructor per iteration of
the `while current <= max_date` loop.  The backward holiday shift mutates
`current` itself (`current -= timedelta(days=1)`), so it persists into
every later step: the next iteration starts from the shifted date + 14.
`fuel` only bounds the iteration count; the loop exits via the date
comparison. -/
def fillLoop (maxN : Nat) : Nat → Date → List DateRow → List DateRow
  | 0, _, rows => rows
  | fuel + 1, current, rows =>
    if current.toNum ≤ maxN then
      let rows := rows.map (fun r =>
        if r.dateDate == fillAdj current then { r with isPayDay := true } else r)
      fillLoop maxN fuel (addDays (fillAdj current) 14) rows
    else rows

/-- The dates `fill_pay_days` marks: the same iteration as `fillLoop`, as a
plain list of dates. -/
def fillTrace (maxN : Nat) : Nat → Date → List Date
  | 0, _ => []
  | fuel + 1, current =>
    if current.toNum ≤ maxN then
      fillAdj current :: fillTrace maxN fuel (addDays (fillAdj current) 14)
    else []

/-- `dates.fill_pay_days`: `none` models the `assert not dates.empty`
failure; otherwise the pay-day flags are set in place starting from the
fixed anchor `date(2011, 1, 7)`. -/
def fill_pay_days (rows : List DateRow) : Option (List DateRow) :=
  if rows.isEmpty then none
  else some (fillLoop (maxDateN rows) (maxDateN rows + 1) ⟨2011, 1, 7⟩ rows)

/-- `dates.get_dates`: build the table, then overlay pay days. -/
def get_dates (start stop : Date) : Option (List DateRow) :=
  fill_pay_days (create_dates start stop)

def FIRST_PAY_PERIOD_START : Date := ⟨2025, 1, 12⟩

def LAST_PAY_PERIOD_END : Date := ⟨2085, 12, 22⟩

def WORK_HOURS_PER_DAY : Nat := 8

/-- `pay_periods.adjust_pay_date`.  The source only returns a value inside
the `if`; on the fall-through path (the pay date is not a holiday, or the
period starts on Black Friday) the Python function implicitly returns
`None`, modelled by `none`. -/
def adjust_pay_date (pay_date : Date) (pay_period_start : Date) : Option Date :=
  -- Shift the pay date to Thursday if it falls on a holiday, except for
  -- Black Friday
  let is_bf := pay_period_start == nth_weekday_of_month 4 6 11 pay_period_start.year
  if is_holiday pay_date && !is_bf then some (prevDate pay_date)
  else none

/-- `pay_periods.DayCounts`. -/
structure DayCounts where
  holidays : Nat
  days_in_year_start : Nat
  days_in_year_end : Nat
deriving DecidableEq, Repr

/-- `pay_periods.get_day_counts`, applied to the rows of the pay-period
window. -/
def get_day_counts (dates : List DateRow) (year_start year_end : Nat) : DayCounts :=
  { holidays := (dates.filter (fun r => r.isHoliday)).length
    days_in_year_start := (dates.filter (fun r => r.dateYear == year_start && !r.isWeekend)).length
    days_in_year_end := (dates.filter (fun r => r.dateYear == year_end && !r.isWeekend)).length }

/-- One record of `get_pay_periods` (the dict appended to `records`).
`payDate` is the raw result of `adjust_pay_date` and hence an `Option`. -/
structure PayPeriodRec where
  payPeriodID : Nat
  startDate : Date
  endDate : Date
  ppIndex : Nat
  ppNumber : Nat
  yearStart : Nat
  yearEnd : Nat
  isSplitYear : Bool
  holidays : Nat
  workDaysInYearStart : Nat
  workDaysInYearEnd : Nat
  hoursInYearStart : Nat
  hoursInYearEnd : Nat
  payDate : Option Date
  payYear : Nat
deriving DecidableEq, Repr

/-- The body of one iteration of `pay_periods.get_pay_periods`'s
`while current <= LAST_PAY_PERIOD_END` loop: build the record for the
period starting at `current` and the next per-year sequence number.
Failures of `dates.loc[...].values[0]` (date missing from the table) and
of `pay_date.year` (when `adjust_pay_date` returned `None`) surface as
`Except.error`. -/
def ppBody (dates : List DateRow) (current : Date) (index pp_number : Nat) :
    Except String (PayPeriodRec × Nat) :=
  let end_date := addDays current 13
  let pay_date := adjust_pay_date (addDays end_date 6) current
  match (dates.filter (fun r => r.dateDate == current)).head? with
  | none => Except.error "IndexError"
  | some row =>
    let year_start := row.dateYear
    let year_end := end_date.year
    let in_range := dates.filter (fun r =>
      current.toNum ≤ r.dateDate.toNum && r.dateDate.toNum ≤ end_date.toNum)
    let day_counts := get_day_counts in_range year_start year_end
    match pay_date with
    | none => Except.error "AttributeError"
    | some pd0 =>
      let record : PayPeriodRec :=
        { payPeriodID := year_start * 100 + pp_number
          startDate := current
          endDate := end_date
          ppIndex := index
          ppNumber := pp_number
          yearStart := year_start
          yearEnd := year_end
          isSplitYear := year_start != year_end
          holidays := day_counts.holidays
          workDaysInYearStart := day_counts.days_in_year_start
          workDaysInYearEnd := day_counts.days_in_year_end
          hoursInYearStart := day_counts.days_in_year_start * WORK_HOURS_PER_DAY
          hoursInYearEnd := day_counts.days_in_year_end * WORK_HOURS_PER_DAY
          payDate := pay_date
          payYear := pd0.year }
      -- If the period doesn't cross the year boundary (and isn't the
      -- last one of its year), increment the PP number, else reset
      let next_pp_number :=
        if year_start == year_end && end_date != ⟨year_start, 12, 31⟩ then pp_number + 1
        else 1
      Except.ok (record, next_pp_number)

/-- The `while current <= LAST_PAY_PERIOD_END` loop of
`pay_periods.get_pay_periods`, one `ppBody` call per iteration.  On
normal exit the source returns `pd.DataFrame(pay_periods)` where the
`pay_periods` dict's lists were never appended to — `records` collects
the built rows but is unused — so the returned table is empty.  `fuel`
only bounds the iteration count; the loop exits via the date
comparison. -/
def ppLoop (dates : List DateRow) :
    Nat → Date → Nat → Nat → List PayPeriodRec → Except String (List PayPeriodRec)
  | 0, _, _, _, _ => Except.ok []
  | fuel + 1, current, index, pp_number, records =>
    if current.toNum ≤ LAST_PAY_PERIOD_END.toNum then
      match ppBody dates current index pp_number with
      | Except.error e => Except.error e
      | Except.ok (record, next_pp_number) =>
        ppLoop dates fuel (addDays current 14) (index + 1) next_pp_number (records ++ [record])
    else Except.ok []

/-- `pay_periods.get_pay_periods`. -/
def get_pay_periods (dates : List DateRow) : Except String (List PayPeriodRec) :=
  ppLoop dates (LAST_PAY_PERIOD_END.toNum + 1) FIRST_PAY_PERIOD_START 1 1 []

def DAYS_PER_YEAR : Nat := 365

def DAYS_PER_LEAP_YEAR : Nat := 366

/-- `years.get_days_in_year`. -/
def get_days_in_year (year : Nat) : Nat :=
  if isleap year then DAYS_PER_LEAP_YEAR else DAYS_PER_YEAR

/-- One row of the `Years` table. -/
structure YearRow where
  yearYear : Nat
  totalDays : Nat
  workDays : Nat
  holidays : Nat
  weekDays : Nat
  weekendDays : Nat
  workHours : Nat
  payPeriods : Nat
  isLeap : Bool
  isPresElection : Bool
  isInauguration : Bool
deriving DecidableEq, Repr

/-- `years.get_years`.  The base list is the distinct years of the date
table in ascending order (`drop_duplicates` + `sort_values`).  Each of the
four per-year counts is attached with `inner_join` against a
`groupby(...).size()` series, whose index only contains years with a
non-zero count: a year missing from any of the four series is dropped by
that join.  The pay-period count is attached with `left_join` +
`fillna(0)`, so it defaults to `0` and drops nothing. -/
def get_years (dates : List DateRow) (pay_periods : List PayPeriodRec) : List YearRow :=
  let years := ((dates.map (fun r => r.dateYear)).toFinset.sort (· ≤ ·))
  years.filterMap (fun y =>
    let workDays := (dates.filter (fun r => r.isWorkDay && r.dateYear == y)).length
    let holidays := (dates.filter (fun r => r.isHoliday && r.dateYear == y)).length
    let weekDays := (dates.filter (fun r => !r.isWeekend && r.dateYear == y)).length
    let weekendDays := (dates.filter (fun r => r.isWeekend && r.dateYear == y)).length
    if workDays != 0 && holidays != 0 && weekDays != 0 && weekendDays != 0 then
      some
        { yearYear := y
          totalDays := get_days_in_year y
          workDays := workDays
          holidays := holidays
          weekDays := weekDays
          weekendDays := weekendDays
          workHours := weekDays * WORK_HOURS_PER_DAY
          payPeriods := (pay_periods.filter (fun p => p.yearStart == y)).length
          isLeap := isleap y
          isPresElection := y % 4 == 0
          isInauguration := y % 4 == 1 }
    else none)

/-- Modelled from the spec (§4.3): the per-period pay-date adjustment —
shift back one day iff the raw pay date is a holiday and the period does
not start on Black Friday; otherwise the pay date is unchanged.  This is
what `adjust_pay_date` was evidently meant to compute (its annotated
return type is `date`, not `Optional[date]`). -/
def specAdjustPayDate (pay_date : Date) (s : Date) : Date :=
  if is_holiday pay_date && !(s == nth_weekday_of_month 4 6 11 s.year) then prevDate pay_date
  else pay_date

/-- Modelled from the spec (§4.3): the adjusted pay dates of the
pay-period series — starting at the fixed anchor, stepping 14 days while
the start is ≤ the final boundary, each period's pay date being its end
date + 6 days (= start + 19), holiday-adjusted per period independently. -/
def specPayDatesFrom : Nat → Date → List Date
  | 0, _ => []
  | fuel + 1, current =>
    if current.toNum ≤ LAST_PAY_PERIOD_END.toNum then
      specAdjustPayDate (addDays current 19) current :: specPayDatesFrom fuel (addDays current 14)
    else []

/-- The full list of spec-side adjusted pay dates. -/
def specPayDatesList : List Date :=
  specPayDatesFrom (LAST_PAY_PERIOD_END.toNum + 1) FIRST_PAY_PERIOD_START

/-- The floating-holiday rule as the claim states it: Labor Day (first
Monday of September), Thanksgiving (4th Thursday of November), the day
after Thanksgiving (the 4th Friday of November, per the claim's own
definition), Memorial Day (a Monday in May with day ≥ 25), and MLK Day
(3rd Monday of January, years ≥ 1986 only).  SQL weekdays: Monday = 2,
Thursday = 5, Friday = 6. -/
def specFloatingHoliday (d : Date) : Prop :=
  (d.month = 9 ∧ to_sql_weekday d = 2 ∧ d.day ≤ 7)
  ∨ (d.month = 11 ∧ to_sql_weekday d = 5 ∧ 22 ≤ d.day ∧ d.day ≤ 28)
  ∨ (d.month = 11 ∧ to_sql_weekday d = 6 ∧ 22 ≤ d.day ∧ d.day ≤ 28)
  ∨ (d.month = 5 ∧ to_sql_weekday d = 2 ∧ 25 ≤ d.day)
  ∨ (d.month = 1 ∧ to_sql_weekday d = 2 ∧ 15 ≤ d.day ∧ d.day ≤ 21 ∧ 1986 ≤ d.year)

/-- The federal observed date of a holiday: the preceding Friday when it
falls on Saturday (SQL weekday 7), the following Monday when it falls on
Sunday (SQL weekday 1), the actual date otherwise. -/
def observedDate (h : Date) : Date :=
  if to_sql_weekday h = 7 then prevDate h
  else if to_sql_weekday h = 1 then nextDate h
  else h

/-- The fixed-holiday rule as the claim states it: `d` is the observed
date of some year's New Year's Day, Independence Day or Christmas. -/
def specFixedHoliday (d : Date) : Prop :=
  (∃ y, 1 ≤ y ∧ d = observedDate ⟨y, 1, 1⟩)
  ∨ (∃ y, 1 ≤ y ∧ d = observedDate ⟨y, 7, 4⟩)
  ∨ (∃ y, 1 ≤ y ∧ d = observedDate ⟨y, 12, 25⟩)

/-- Modelled from the spec: the claim's week-numbering convention — week 1
begins on the first Sunday on/after January 1, so the week number of `d`
is the number of Sundays of `d`'s calendar year that fall on or before
`d` (days before the first Sunday are in "week 0"). -/
def specWeekNumber (d : Date) : Nat :=
  (List.range (get_cy_day d)).countP
    (fun j => to_sql_weekday (addDays ⟨d.year, 1, 1⟩ j) == 1)

/-- The year function `y ↦ 365y + ⌊y/4⌋ - ⌊y/100⌋ + ⌊y/400⌋` grows by 366
across a leap year and by 365 otherwise. -/
theorem yearNum_step (y : Nat) (hy : 1 ≤ y) :
    365 * y + y / 4 - y / 100 + y / 400 =
      365 * (y - 1) + (y - 1) / 4 - (y - 1) / 100 + (y - 1) / 400 +
        (if isleap y then 366 else 365) := by
  have h : isleap y = true ↔ (y % 4 = 0 ∧ (y % 100 ≠ 0 ∨ y % 400 = 0)) := by
    simp only [isleap, Bool.and_eq_true, beq_iff_eq, Bool.or_eq_true, bne_iff_ne, ne_eq]
  split
  · rename_i hl
    rw [h] at hl
    omega
  · rename_i hl
    rw [h] at hl
    omega

/-- Every month has at least 28 days. -/
theorem daysInMonth_ge (y m : Nat) : 28 ≤ daysInMonth y m := by
  unfold daysInMonth
  split
  · split <;> omega
  · split <;> omega

/-- Every month has at most 31 days. -/
theorem daysInMonth_le (y m : Nat) : daysInMonth y m ≤ 31 := by
  unfold daysInMonth
  split
  · split <;> omega
  · split <;> omega

/-- Validity is preserved by the calendar successor. -/
theorem valid_nextDate {d : Date} (hd : Valid d) : Valid (nextDate d) := by
  obtain ⟨y, m, dd⟩ := d
  obtain ⟨h1, h2, h3, h4, h5⟩ := hd
  simp only at h1 h2 h3 h4 h5
  have g2 := daysInMonth_ge y (m + 1)
  have g3 := daysInMonth_ge (y + 1) 1
  unfold nextDate
  dsimp only
  split
  · refine ⟨h1, h2, h3, ?_, ?_⟩ <;> dsimp only [Valid] <;> omega
  · split
    · refine ⟨h1, ?_, ?_, ?_, ?_⟩ <;> dsimp only [Valid] <;> omega
    · refine ⟨?_, ?_, ?_, ?_, ?_⟩ <;> dsimp only [Valid] <;> omega

/-- In February the day count matches the leap-year rule. -/
theorem daysInMonth_feb (y : Nat) :
    daysInMonth y 2 = if isleap y then 29 else 28 := by
  unfold daysInMonth
  norm_num

/-- The day number of the calendar successor is one more: `toNum` realises
consecutive dates as consecutive naturals. -/
theorem toNum_nextDate {d : Date} (hd : Valid d) :
    (nextDate d).toNum = d.toNum + 1 := by
  obtain ⟨y, m, dd⟩ := d
  obtain ⟨h1, h2, h3, h4, h5⟩ := hd
  simp only at h1 h2 h3 h4 h5
  unfold nextDate
  dsimp only
  split
  · -- same month, next day
    unfold Date.toNum shiftedYear
    dsimp only
    by_cases hm : m ≤ 2
    · simp only [if_pos hm]; omega
    · simp only [if_neg hm]; omega
  · rename_i hd1
    have hdd : dd = daysInMonth y m := by omega
    split
    · -- move to the first day of the next month, same year
      rename_i hm12
      subst hdd
      unfold Date.toNum shiftedYear
      dsimp only
      have hleap := daysInMonth_feb y
      by_cases hl : isleap y = true
      · rw [if_pos hl] at hleap
        have hg := yearNum_step y h1
        rw [if_pos hl] at hg
        interval_cases m <;> simp_all [daysInMonth]
      · rw [if_neg hl] at hleap
        have hg := yearNum_step y h1
        rw [if_neg hl] at hg
        interval_cases m <;> simp_all [daysInMonth]
    · -- December 31 rolls over to January 1 of the next year
      have hm : m = 12 := by omega
      subst hm
      have : dd = 31 := by simpa [daysInMonth] using hdd
      subst this
      unfold Date.toNum shiftedYear
      norm_num

/-- `prevDate` inverts `nextDate` on valid dates. -/
theorem prevDate_nextDate {d : Date} (hd : Valid d) : prevDate (nextDate d) = d := by
  obtain ⟨y, m, dd⟩ := d
  obtain ⟨h1, h2, h3, h4, h5⟩ := hd
  simp only at h1 h2 h3 h4 h5
  unfold nextDate
  dsimp only
  split
  · unfold prevDate
    dsimp only
    rw [if_pos (show 2 ≤ dd + 1 by omega)]
    simp only [Date.mk.injEq, Nat.add_sub_cancel, and_self]
  · split
    · rename_i hlt hm
      have hdd : dd = daysInMonth y m := by omega
      unfold prevDate
      dsimp only
      rw [if_neg (by omega), if_pos (show 2 ≤ m + 1 by omega)]
      simp only [Date.mk.injEq, Nat.add_sub_cancel, and_self, true_and]
      omega
    · rename_i hlt hm
      have hm12 : m = 12 := by omega
      subst hm12
      have hdd : dd = 31 := by
        simp only [daysInMonth] at h5 hlt
        norm_num at h5 hlt
        omega
      subst hdd
      unfold prevDate
      norm_num

/-- Validity is preserved by adding days. -/
theorem valid_addDays {d : Date} (hd : Valid d) (k : Nat) : Valid (addDays d k) := by
  induction k with
  | zero => exact hd
  | succ n ih => exact valid_nextDate ih

/-- Day numbers add up under `addDays`. -/
theorem toNum_addDays {d : Date} (hd : Valid d) (k : Nat) :
    (addDays d k).toNum = d.toNum + k := by
  induction k with
  | zero => rfl
  | succ n ih =>
    show (nextDate (addDays d n)).toNum = _
    rw [toNum_nextDate (valid_addDays hd n), ih]
    omega

/-- `addDays` commutes with taking the successor first. -/
theorem addDays_nextDate (d : Date) (k : Nat) :
    addDays (nextDate d) k = nextDate (addDays d k) := by
  induction k with
  | zero => rfl
  | succ n ih =>
    show nextDate (addDays (nextDate d) n) = _
    rw [ih]
    rfl

/-- `toNum` is injective on valid dates (the easy direction: adding a
positive number of days changes the date). -/
theorem addDays_ne {d : Date} (hd : Valid d) {k : Nat} (hk : 1 ≤ k) :
    addDays d k ≠ d := by
  intro h
  have := toNum_addDays hd k
  rw [h] at this
  omega

/-- Adding days within the current month just moves the day-of-month. -/
theorem addDays_within_month {d : Date} (hd : Valid d) {k : Nat}
    (hk : d.day + k ≤ daysInMonth d.year d.month) :
    addDays d k = ⟨d.year, d.month, d.day + k⟩ := by
  induction k with
  | zero => simp [addDays]
  | succ n ih =>
    have hn : d.day + n ≤ daysInMonth d.year d.month := by omega
    show nextDate (addDays d n) = _
    rw [ih hn]
    unfold nextDate
    obtain ⟨y, m, dd⟩ := d
    simp only at hk hn ⊢
    rw [if_pos (by omega)]
    simp only [Date.mk.injEq, true_and]
    omega

/-- Closed form of the SQL weekday directly in terms of the day number. -/
theorem to_sql_weekday_eq (d : Date) :
    to_sql_weekday d = (d.toNum + 3) % 7 + 1 := by
  unfold to_sql_weekday isoweekday
  omega

/-- The SQL weekday is always between 1 and 7. -/
theorem to_sql_weekday_range (d : Date) :
    1 ≤ to_sql_weekday d ∧ to_sql_weekday d ≤ 7 := by
  rw [to_sql_weekday_eq]
  omega

/-- The spec-side adjustment returns either the raw pay date or its
predecessor. -/
theorem specAdjustPayDate_cases (pay s : Date) :
    specAdjustPayDate pay s = pay ∨ specAdjustPayDate pay s = prevDate pay := by
  unfold specAdjustPayDate
  split
  · right; rfl
  · left; rfl

/-- Every spec-side pay date is at least 18 days after its series' first
period start: pay dates are start + 19, or start + 18 after a holiday
shift. -/
theorem specPayDatesFrom_lb (fuel : Nat) (c : Date) (hc : Valid c) :
    ∀ p ∈ specPayDatesFrom fuel c, c.toNum + 18 ≤ p.toNum := by
  induction fuel generalizing c with
  | zero => intro p hp; simp [specPayDatesFrom] at hp
  | succ n ih =>
    intro p hp
    unfold specPayDatesFrom at hp
    split at hp
    · rcases List.mem_cons.mp hp with h | h
      · rcases specAdjustPayDate_cases (addDays c 19) c with h2 | h2
        · rw [h, h2, toNum_addDays hc 19]
          omega
        · have h19 : addDays c 19 = nextDate (addDays c 18) := rfl
          rw [h, h2, h19, prevDate_nextDate (valid_addDays hc 18), toNum_addDays hc 18]
      · have h14 := ih (addDays c 14) (valid_addDays hc 14) p h
        rw [toNum_addDays hc 14] at h14
        omega
    · simp at hp

/-- One unfolding of the pay-period loop. -/
theorem ppLoop_succ (dates : List DateRow) (n : Nat) (current : Date)
    (index pp_number : Nat) (records : List PayPeriodRec) :
    ppLoop dates (n + 1) current index pp_number records =
      (if current.toNum ≤ LAST_PAY_PERIOD_END.toNum then
        match ppBody dates current index pp_number with
        | Except.error e => Except.error e
        | Except.ok (record, next_pp_number) =>
          ppLoop dates n (addDays current 14) (index + 1) next_pp_number (records ++ [record])
      else Except.ok []) := rfl

/-- When the table contains the period's start date but the pay-date
adjustment fell through to `None`, the iteration body raises
`AttributeError` while building the record (`pay_date.year`). -/
theorem ppBody_attrError (dates : List DateRow) (row : DateRow) (current : Date)
    (index pp_number : Nat)
    (hrow : (dates.filter (fun r => r.dateDate == current)).head? = some row)
    (hadj : adjust_pay_date (addDays (addDays current 13) 6) current = none) :
    ppBody dates current index pp_number = Except.error "AttributeError" := by
  unfold ppBody
  simp only [hrow, hadj]

/-- C1: the claim says `get_pay_periods`, on a date table covering the
pay-period range, returns one contiguous 14-day `PayPeriod` row per step.
The code cannot do this: already in the first iteration (period
2025-01-12 … 2025-01-25) the raw pay date 2025-01-31 is not a holiday, so
`adjust_pay_date` falls through and returns `None`, and building the
record evaluates `pay_date.year`, raising `AttributeError`.  (Even absent
that failure the function would return an empty table: the returned
`pay_periods` dict is never filled; only the unused `records` list is.)
The theorem: for any table containing a row for the anchor date — as any
covering table does — `get_pay_periods` fails. -/
theorem c1_get_pay_periods_raises (dates : List DateRow) (row : DateRow)
    (h : (dates.filter (fun r => r.dateDate == FIRST_PAY_PERIOD_START)).head? = some row) :
    get_pay_periods dates = Except.error "AttributeError" := by
  unfold get_pay_periods
  rw [ppLoop_succ]
  rw [if_pos (by decide : FIRST_PAY_PERIOD_START.toNum ≤ LAST_PAY_PERIOD_END.toNum)]
  rw [ppBody_attrError dates row FIRST_PAY_PERIOD_START 1 1 h (by decide)]

/-- Witness for C1 at a concrete table containing the anchor date. -/
theorem c1_get_pay_periods_raises_witness :
    get_pay_periods (create_dates ⟨2025, 1, 12⟩ ⟨2025, 1, 12⟩) =
      Except.error "AttributeError" :=
  c1_get_pay_periods_raises _ (mkDateRow ⟨2025, 1, 12⟩) (by decide)

/-- C2: the claim says the pay date equals `end + 6` when that date is not
a holiday (or the period starts on Black Friday), and `end + 5` when it is
a holiday and the period is not Black-Friday-anchored.  The second half
matches the code, but on the not-adjusted path `adjust_pay_date` returns
`None` instead of the unchanged date (missing `return pay_date`): at the
first pay period (start 2025-01-12, raw pay date 2025-01-31, not a
holiday) the code yields `none` where the claim requires 2025-01-31.  The
holiday case behaves as claimed: for a period ending 2025-12-19 the raw
pay date 2025-12-25 (Christmas, a Thursday) is shifted to 2025-12-24. -/
theorem c2_adjust_pay_date_eval :
    adjust_pay_date (addDays (addDays FIRST_PAY_PERIOD_START 13) 6) FIRST_PAY_PERIOD_START = none
      ∧ adjust_pay_date ⟨2025, 12, 25⟩ ⟨2025, 12, 6⟩ = some ⟨2025, 12, 24⟩
      ∧ specAdjustPayDate (addDays (addDays FIRST_PAY_PERIOD_START 13) 6) FIRST_PAY_PERIOD_START
          = ⟨2025, 1, 31⟩ := by
  refine ⟨by decide, by decide, by decide⟩

/-- C3 counterexample: the claim says the pay-day overlay flags exactly
the adjusted pay dates of the pay-period series.  But `fill_pay_days`
iterates independently from the anchor 2011-01-07, long before the first
pay period (anchor 2025-01-12, first pay date ≥ 2025-01-30): on the table
2011-01-01 … 2011-01-14 it flags 2011-01-07, which is no pay period's pay
date. -/
theorem c3_fill_pay_days_independent_counterexample :
    (((fill_pay_days (create_dates ⟨2011, 1, 1⟩ ⟨2011, 1, 14⟩)).getD []).filter
        (fun r => r.isPayDay)).map (fun r => r.dateDate) = [⟨2011, 1, 7⟩]
      ∧ Date.mk 2011 1 7 ∉ specPayDatesList := by
  constructor
  · decide
  · intro hmem
    have hlb := specPayDatesFrom_lb _ FIRST_PAY_PERIOD_START (by decide) _ hmem
    revert hlb
    decide

/-- One unfolding of `fillLoop`. -/
theorem fillLoop_succ (maxN n : Nat) (current : Date) (rows : List DateRow) :
    fillLoop maxN (n + 1) current rows =
      if current.toNum ≤ maxN then
        fillLoop maxN n (addDays (fillAdj current) 14)
          (rows.map (fun r =>
            if r.dateDate == fillAdj current then { r with isPayDay := true } else r))
      else rows := rfl

/-- One unfolding of `fillTrace`. -/
theorem fillTrace_succ (maxN n : Nat) (current : Date) :
    fillTrace maxN (n + 1) current =
      if current.toNum ≤ maxN then
        fillAdj current :: fillTrace maxN n (addDays (fillAdj current) 14)
      else [] := rfl

/-- The overlay pass, characterised: `fillLoop` marks exactly the rows
whose date occurs in the trace of the iteration. -/
theorem fillLoop_eq_trace (maxN fuel : Nat) :
    ∀ (current : Date) (rows : List DateRow),
      fillLoop maxN fuel current rows =
        rows.map (fun r =>
          if r.dateDate ∈ fillTrace maxN fuel current then { r with isPayDay := true } else r) := by
  induction fuel with
  | zero =>
    intro current rows
    simp [fillLoop, fillTrace]
  | succ n ih =>
    intro current rows
    rw [fillLoop_succ]
    simp only [fillTrace_succ]
    by_cases hcond : current.toNum ≤ maxN
    · rw [if_pos hcond]
      simp only [if_pos hcond]
      rw [ih, List.map_map]
      apply List.map_congr_left
      intro r _
      simp only [Function.comp_apply]
      by_cases hr : r.dateDate = fillAdj current
      · by_cases hm : r.dateDate ∈ fillTrace maxN n (addDays (fillAdj current) 14) <;>
          simp [hr, hm]
      · by_cases hm : r.dateDate ∈ fillTrace maxN n (addDays (fillAdj current) 14) <;>
          simp [hr, hm]
    · rw [if_neg hcond]
      simp only [if_neg hcond]
      simp

/-- C3 amended: the flagged dates are produced by `fill_pay_days`' own
iteration (anchored at 2011-01-07, stepping 14 days, with persistent
backward holiday shifts), not by the pay-period series: on any non-empty
table, a row is flagged exactly when its date occurs in that trace. -/
theorem c3_fill_pay_days_trace (rows : List DateRow) (h : rows ≠ []) :
    fill_pay_days rows = some (rows.map (fun r =>
      if r.dateDate ∈ fillTrace (maxDateN rows) (maxDateN rows + 1) ⟨2011, 1, 7⟩
      then { r with isPayDay := true } else r)) := by
  unfold fill_pay_days
  rw [if_neg (by simpa using h)]
  rw [fillLoop_eq_trace]

/-- Witness for C3's amended theorem at a concrete two-day table. -/
theorem c3_fill_pay_days_trace_witness :
    fill_pay_days (create_dates ⟨2011, 1, 1⟩ ⟨2011, 1, 2⟩) =
      some ((create_dates ⟨2011, 1, 1⟩ ⟨2011, 1, 2⟩).map (fun r =>
        if r.dateDate ∈ fillTrace (maxDateN (create_dates ⟨2011, 1, 1⟩ ⟨2011, 1, 2⟩))
            (maxDateN (create_dates ⟨2011, 1, 1⟩ ⟨2011, 1, 2⟩) + 1) ⟨2011, 1, 7⟩
        then { r with isPayDay := true } else r)) :=
  c3_fill_pay_days_trace _ (by decide)

/-- C4 counterexample: the claim says a computed pay date outside the date
table's range makes the overlay fail hard.  On the table
2011-01-20 … 2011-01-25 the iteration's first computed pay date is
2011-01-07 — before the table's first row — yet `fill_pay_days` completes
normally and simply leaves it unflagged (the `.loc` assignment on a
non-matching mask is a silent no-op). -/
theorem c4_no_failure_counterexample :
    (fill_pay_days (create_dates ⟨2011, 1, 20⟩ ⟨2011, 1, 25⟩)).isSome = true
      ∧ Date.mk 2011 1 7 ∈ fillTrace (maxDateN (create_dates ⟨2011, 1, 20⟩ ⟨2011, 1, 25⟩))
          (maxDateN (create_dates ⟨2011, 1, 20⟩ ⟨2011, 1, 25⟩) + 1) ⟨2011, 1, 7⟩
      ∧ ((create_dates ⟨2011, 1, 20⟩ ⟨2011, 1, 25⟩).all
          (fun r => r.dateDate != ⟨2011, 1, 7⟩)) = true := by
  refine ⟨by decide, by decide, by decide⟩

/-- C4 amended: `fill_pay_days` never fails because of a pay date outside
the table's range — pay dates with no matching row are silently skipped.
Its only hard failure is the `assert not dates.empty` on an empty table. -/
theorem c4_fill_pay_days_total (rows : List DateRow) :
    (fill_pay_days rows).isSome = true ↔ rows ≠ [] := by
  unfold fill_pay_days
  by_cases h : rows.isEmpty
  · rw [if_pos h]
    simp [List.isEmpty_iff.mp h]
  · rw [if_neg h]
    simp only [Option.isSome_some, true_iff]
    intro hc
    subst hc
    simp at h

/-- `nth_weekday_of_month`, written via `addDays`. -/
theorem nth_weekday_addDays (n w m y : Nat) :
    nth_weekday_of_month n w m y =
      addDays ⟨y, m, 1⟩ ((w + 7 - to_sql_weekday ⟨y, m, 1⟩) % 7 + (n - 1) * 7) := rfl

/-- The SQL weekday after adding days, in closed form. -/
theorem to_sql_weekday_addDays {d : Date} (hd : Valid d) (k : Nat) :
    to_sql_weekday (addDays d k) = (d.toNum + k + 3) % 7 + 1 := by
  rw [to_sql_weekday_eq, toNum_addDays hd k]

/-- The first day of a valid month is a valid date. -/
theorem valid_first_day {y m : Nat} (hy : 1 ≤ y) (hm1 : 1 ≤ m) (hm2 : m ≤ 12) :
    Valid ⟨y, m, 1⟩ :=
  ⟨hy, hm1, hm2, le_refl 1, le_trans (by norm_num) (daysInMonth_ge y m)⟩

/-- C10: for every valid year/month, SQL weekday 1..7 and `n ≥ 1`, the
date returned by `nth_weekday_of_month` falls on the requested weekday;
and for `n ≤ 4` it lies within the requested month and year (and is a
valid date). -/
theorem c10_nth_weekday_of_month (n w m y : Nat) (hy : 1 ≤ y)
    (hm1 : 1 ≤ m) (hm2 : m ≤ 12) (hw1 : 1 ≤ w) (hw2 : w ≤ 7) (hn : 1 ≤ n) :
    to_sql_weekday (nth_weekday_of_month n w m y) = w
      ∧ (n ≤ 4 → (nth_weekday_of_month n w m y).year = y
          ∧ (nth_weekday_of_month n w m y).month = m
          ∧ Valid (nth_weekday_of_month n w m y)) := by
  have hv : Valid ⟨y, m, 1⟩ := valid_first_day hy hm1 hm2
  have hoff : (w + 7 - to_sql_weekday ⟨y, m, 1⟩) % 7 < 7 := Nat.mod_lt _ (by norm_num)
  have hdm28 := daysInMonth_ge y m
  constructor
  · rw [nth_weekday_addDays, to_sql_weekday_addDays hv]
    simp only [to_sql_weekday_eq]
    omega
  · intro hn4
    have hle : (1 : Nat) + ((w + 7 - to_sql_weekday ⟨y, m, 1⟩) % 7 + (n - 1) * 7)
        ≤ daysInMonth y m := by omega
    rw [nth_weekday_addDays, addDays_within_month hv hle]
    exact ⟨rfl, rfl, hy, hm1, hm2, by dsimp only; omega, by dsimp only; omega⟩

/-- Witness for C10 at Thanksgiving 2024 (4th Thursday of November). -/
theorem c10_nth_weekday_of_month_witness :
    to_sql_weekday (nth_weekday_of_month 4 5 11 2024) = 5
      ∧ (4 ≤ 4 → (nth_weekday_of_month 4 5 11 2024).year = 2024
          ∧ (nth_weekday_of_month 4 5 11 2024).month = 11
          ∧ Valid (nth_weekday_of_month 4 5 11 2024)) :=
  c10_nth_weekday_of_month 4 5 11 2024 (by decide) (by decide) (by decide)
    (by decide) (by decide) (by decide)

/-- A valid date equals the n-th occurrence (n ≤ 4) of a weekday in its
own month and year exactly when it has that weekday and its day-of-month
lies in the n-th seven-day window. -/
theorem eq_nth_weekday_iff {d : Date} (hd : Valid d) {n w m : Nat}
    (hn1 : 1 ≤ n) (hn4 : n ≤ 4) (hw1 : 1 ≤ w) (hw2 : w ≤ 7)
    (hm1 : 1 ≤ m) (hm2 : m ≤ 12) :
    d = nth_weekday_of_month n w m d.year ↔
      (d.month = m ∧ to_sql_weekday d = w
        ∧ 7 * (n - 1) + 1 ≤ d.day ∧ d.day ≤ 7 * n) := by
  obtain ⟨dy, dm, dd⟩ := d
  obtain ⟨hy, hdm1, hdm2, hdd1, hdd2⟩ := hd
  dsimp only at hy hdm1 hdm2 hdd1 hdd2 ⊢
  have hv1 : Valid ⟨dy, m, 1⟩ := valid_first_day hy hm1 hm2
  have hoff : (w + 7 - to_sql_weekday ⟨dy, m, 1⟩) % 7 < 7 := Nat.mod_lt _ (by norm_num)
  have hdm28 := daysInMonth_ge dy m
  have hle : (1 : Nat) + ((w + 7 - to_sql_weekday ⟨dy, m, 1⟩) % 7 + (n - 1) * 7)
      ≤ daysInMonth dy m := by omega
  have hnth : nth_weekday_of_month n w m dy =
      ⟨dy, m, 1 + ((w + 7 - to_sql_weekday ⟨dy, m, 1⟩) % 7 + (n - 1) * 7)⟩ := by
    rw [nth_weekday_addDays, addDays_within_month hv1 hle]
  have htoNum : (Date.mk dy m
        (1 + ((w + 7 - to_sql_weekday ⟨dy, m, 1⟩) % 7 + (n - 1) * 7))).toNum
      = (Date.mk dy m 1).toNum
        + ((w + 7 - to_sql_weekday ⟨dy, m, 1⟩) % 7 + (n - 1) * 7) := by
    rw [← addDays_within_month hv1 hle, toNum_addDays hv1]
  rw [hnth]
  constructor
  · intro h
    rw [Date.mk.injEq] at h
    obtain ⟨-, h2, h3⟩ := h
    subst h2
    refine ⟨rfl, ?_, by omega, by omega⟩
    rw [h3]
    simp only [to_sql_weekday_eq] at htoNum ⊢
    rw [htoNum]
    omega
  · rintro ⟨h1, h2, h3, h4⟩
    subst h1
    have hmk : Date.mk dy dm dd = ⟨dy, dm, 1 + (dd - 1)⟩ := by
      rw [Date.mk.injEq]
      refine ⟨rfl, rfl, by omega⟩
    have htd : (Date.mk dy dm dd).toNum = (Date.mk dy dm 1).toNum + (dd - 1) := by
      rw [hmk, ← addDays_within_month hv1 (by dsimp only; omega), toNum_addDays hv1]
    rw [Date.mk.injEq]
    refine ⟨rfl, rfl, ?_⟩
    rw [to_sql_weekday_eq, htd] at h2
    simp only [to_sql_weekday_eq]
    omega

/-- C7: `is_floating_holiday` holds exactly on the dates the claim lists;
and the MLK clause is year-gated: the 3rd Monday of January 1985 is not a
holiday while the 3rd Monday of January 1986 is. -/
theorem c7_is_floating_holiday :
    (∀ d : Date, Valid d → (is_floating_holiday d = true ↔ specFloatingHoliday d))
      ∧ is_floating_holiday ⟨1985, 1, 21⟩ = false
      ∧ is_floating_holiday ⟨1986, 1, 20⟩ = true := by
  refine ⟨?_, by decide, by decide⟩
  intro d hd
  have hdd1 : 1 ≤ d.day := hd.2.2.2.1
  unfold is_floating_holiday
  simp only [Bool.or_eq_true, Bool.and_eq_true, beq_iff_eq, decide_eq_true_eq]
  unfold specFloatingHoliday
  rw [@eq_nth_weekday_iff d hd 1 2 9 (by norm_num) (by norm_num)
        (by norm_num) (by norm_num) (by norm_num) (by norm_num),
      @eq_nth_weekday_iff d hd 4 5 11 (by norm_num) (by norm_num)
        (by norm_num) (by norm_num) (by norm_num) (by norm_num),
      @eq_nth_weekday_iff d hd 4 6 11 (by norm_num) (by norm_num)
        (by norm_num) (by norm_num) (by norm_num) (by norm_num),
      @eq_nth_weekday_iff d hd 3 2 1 (by norm_num) (by norm_num)
        (by norm_num) (by norm_num) (by norm_num) (by norm_num)]
  omega

/-- Witness for C7's universally quantified part at Labor Day 2024. -/
theorem c7_is_floating_holiday_witness :
    is_floating_holiday ⟨2024, 9, 2⟩ = true ↔ specFloatingHoliday ⟨2024, 9, 2⟩ :=
  c7_is_floating_holiday.1 ⟨2024, 9, 2⟩ (by decide)

theorem daysInMonth_1 (y : Nat) : daysInMonth y 1 = 31 := by unfold daysInMonth; norm_num

theorem daysInMonth_12 (y : Nat) : daysInMonth y 12 = 31 := by unfold daysInMonth; norm_num

/-- Within a month, the successor just moves the day. -/
theorem nextDate_in_month {y m j : Nat} (hj : j < daysInMonth y m) :
    nextDate ⟨y, m, j⟩ = ⟨y, m, j + 1⟩ := by
  unfold nextDate
  dsimp only
  rw [if_pos hj]

/-- Within a month, the predecessor just moves the day. -/
theorem prevDate_in_month {y m j : Nat} (hj : 2 ≤ j) :
    prevDate ⟨y, m, j⟩ = ⟨y, m, j - 1⟩ := by
  unfold prevDate
  dsimp only
  rw [if_pos hj]

/-- December 31 rolls over to January 1. -/
theorem nextDate_dec31 (y : Nat) : nextDate ⟨y, 12, 31⟩ = ⟨y + 1, 1, 1⟩ := by
  unfold nextDate
  dsimp only
  rw [daysInMonth_12]
  norm_num

/-- January 1 steps back to December 31 of the previous year. -/
theorem prevDate_jan1 (y : Nat) : prevDate ⟨y, 1, 1⟩ = ⟨y - 1, 12, 31⟩ := by
  unfold prevDate
  norm_num

/-- The three source clauses for a mid-month fixed holiday (month `m`,
day `k`, with `2 ≤ k` and `k + 1 ≤ 28` so the shifted dates stay inside
the month) are exactly "being the observed date". -/
theorem observed_mid_iff {d : Date} (hd : Valid d) {m k : Nat}
    (hm1 : 1 ≤ m) (hm2 : m ≤ 12) (hk2 : 2 ≤ k) (hk : k + 1 ≤ 28) :
    ((d.month = m ∧ d.day = k ∧ (1 < to_sql_weekday d ∧ to_sql_weekday d < 7))
      ∨ (d.month = m ∧ d.day = k - 1 ∧ to_sql_weekday d = 6)
      ∨ (d.month = m ∧ d.day = k + 1 ∧ to_sql_weekday d = 2))
    ↔ ∃ y, 1 ≤ y ∧ d = observedDate ⟨y, m, k⟩ := by
  obtain ⟨dy, dm, dd⟩ := d
  obtain ⟨hy, hdm1, hdm2, hdd1, hdd2⟩ := hd
  dsimp only at hy hdm1 hdm2 hdd1 hdd2 ⊢
  have hdim := daysInMonth_ge dy m
  have hvk : Valid ⟨dy, m, k⟩ :=
    ⟨hy, hm1, hm2, by show 1 ≤ k; omega, by show k ≤ daysInMonth dy m; omega⟩
  have hvk1 : Valid ⟨dy, m, k - 1⟩ :=
    ⟨hy, hm1, hm2, by show 1 ≤ k - 1; omega, by show k - 1 ≤ daysInMonth dy m; omega⟩
  have hndk1 : nextDate ⟨dy, m, k - 1⟩ = ⟨dy, m, k⟩ := by
    rw [nextDate_in_month (by omega), Date.mk.injEq]
    exact ⟨rfl, rfl, by omega⟩
  have hndk : nextDate ⟨dy, m, k⟩ = ⟨dy, m, k + 1⟩ := nextDate_in_month (by omega)
  constructor
  · rintro (⟨h1, h2, h3, h4⟩ | ⟨h1, h2, h3⟩ | ⟨h1, h2, h3⟩)
    · have hdeq : Date.mk dy dm dd = ⟨dy, m, k⟩ := by rw [h1, h2]
      rw [hdeq] at h3 h4 ⊢
      refine ⟨dy, hy, ?_⟩
      unfold observedDate
      rw [if_neg (by omega), if_neg (by omega)]
    · have hdeq : Date.mk dy dm dd = ⟨dy, m, k - 1⟩ := by rw [h1, h2]
      rw [hdeq] at h3 ⊢
      refine ⟨dy, hy, ?_⟩
      have hwd : to_sql_weekday (⟨dy, m, k⟩ : Date) = 7 := by
        rw [← hndk1, to_sql_weekday_eq, toNum_nextDate hvk1]
        rw [to_sql_weekday_eq] at h3
        omega
      unfold observedDate
      rw [if_pos hwd, ← hndk1, prevDate_nextDate hvk1]
    · have hdeq : Date.mk dy dm dd = ⟨dy, m, k + 1⟩ := by rw [h1, h2]
      rw [hdeq] at h3 ⊢
      refine ⟨dy, hy, ?_⟩
      have hwd : to_sql_weekday (⟨dy, m, k⟩ : Date) = 1 := by
        rw [← hndk, to_sql_weekday_eq, toNum_nextDate hvk] at h3
        rw [to_sql_weekday_eq]
        omega
      unfold observedDate
      rw [if_neg (by omega), if_pos hwd, hndk]
  · rintro ⟨y, hy1, hobs⟩
    have hdimy := daysInMonth_ge y m
    unfold observedDate at hobs
    have hvy : Valid ⟨y, m, k⟩ :=
      ⟨hy1, hm1, hm2, by show 1 ≤ k; omega, by show k ≤ daysInMonth y m; omega⟩
    have hvy1 : Valid ⟨y, m, k - 1⟩ :=
      ⟨hy1, hm1, hm2, by show 1 ≤ k - 1; omega, by show k - 1 ≤ daysInMonth y m; omega⟩
    have hndy1 : nextDate ⟨y, m, k - 1⟩ = ⟨y, m, k⟩ := by
      rw [nextDate_in_month (by omega), Date.mk.injEq]
      exact ⟨rfl, rfl, by omega⟩
    have hndy : nextDate ⟨y, m, k⟩ = ⟨y, m, k + 1⟩ := nextDate_in_month (by omega)
    by_cases h7 : to_sql_weekday (⟨y, m, k⟩ : Date) = 7
    · rw [if_pos h7, prevDate_in_month hk2, Date.mk.injEq] at hobs
      obtain ⟨e1, e2, e3⟩ := hobs
      rw [e1, e2, e3]
      refine Or.inr (Or.inl ⟨rfl, rfl, ?_⟩)
      rw [← hndy1, to_sql_weekday_eq, toNum_nextDate hvy1] at h7
      rw [to_sql_weekday_eq]
      omega
    · by_cases hh1 : to_sql_weekday (⟨y, m, k⟩ : Date) = 1
      · rw [if_neg h7, if_pos hh1, hndy, Date.mk.injEq] at hobs
        obtain ⟨e1, e2, e3⟩ := hobs
        rw [e1, e2, e3]
        refine Or.inr (Or.inr ⟨rfl, rfl, ?_⟩)
        rw [← hndy, to_sql_weekday_eq, toNum_nextDate hvy]
        rw [to_sql_weekday_eq] at hh1
        omega
      · rw [if_neg h7, if_neg hh1, Date.mk.injEq] at hobs
        obtain ⟨e1, e2, e3⟩ := hobs
        rw [e1, e2, e3]
        have hr := to_sql_weekday_range ⟨y, m, k⟩
        exact Or.inl ⟨rfl, rfl, by omega, by omega⟩

/-- The three source clauses for New Year's Day are exactly "being the
observed date of some year's January 1" (the Saturday shift lands on
December 31 of the previous year). -/
theorem observedNY_iff {d : Date} (hd : Valid d) :
    ((d.month = 1 ∧ d.day = 1 ∧ (1 < to_sql_weekday d ∧ to_sql_weekday d < 7))
      ∨ (d.month = 12 ∧ d.day = 31 ∧ to_sql_weekday d = 6)
      ∨ (d.month = 1 ∧ d.day = 2 ∧ to_sql_weekday d = 2))
    ↔ ∃ y, 1 ≤ y ∧ d = observedDate ⟨y, 1, 1⟩ := by
  obtain ⟨dy, dm, dd⟩ := d
  obtain ⟨hy, hdm1, hdm2, hdd1, hdd2⟩ := hd
  dsimp only at hy hdm1 hdm2 hdd1 hdd2 ⊢
  constructor
  · rintro (⟨h1, h2, h3, h4⟩ | ⟨h1, h2, h3⟩ | ⟨h1, h2, h3⟩)
    · have hdeq : Date.mk dy dm dd = ⟨dy, 1, 1⟩ := by rw [h1, h2]
      rw [hdeq] at h3 h4 ⊢
      refine ⟨dy, hy, ?_⟩
      unfold observedDate
      rw [if_neg (by omega), if_neg (by omega)]
    · have hdeq : Date.mk dy dm dd = ⟨dy, 12, 31⟩ := by rw [h1, h2]
      rw [hdeq] at h3 ⊢
      refine ⟨dy + 1, by omega, ?_⟩
      have hv31 : Valid ⟨dy, 12, 31⟩ :=
        ⟨hy, by norm_num, by norm_num, by norm_num,
          by show (31:Nat) ≤ daysInMonth dy 12; rw [daysInMonth_12]⟩
      have hnd := nextDate_dec31 dy
      have hwd : to_sql_weekday (⟨dy + 1, 1, 1⟩ : Date) = 7 := by
        rw [← hnd, to_sql_weekday_eq, toNum_nextDate hv31]
        rw [to_sql_weekday_eq] at h3
        omega
      unfold observedDate
      rw [if_pos hwd, ← hnd, prevDate_nextDate hv31]
    · have hdeq : Date.mk dy dm dd = ⟨dy, 1, 2⟩ := by rw [h1, h2]
      rw [hdeq] at h3 ⊢
      refine ⟨dy, hy, ?_⟩
      have hv1 : Valid ⟨dy, 1, 1⟩ := valid_first_day hy (by norm_num) (by norm_num)
      have hnd : nextDate ⟨dy, 1, 1⟩ = ⟨dy, 1, 2⟩ :=
        nextDate_in_month (by rw [daysInMonth_1]; omega)
      have hwd : to_sql_weekday (⟨dy, 1, 1⟩ : Date) = 1 := by
        rw [← hnd, to_sql_weekday_eq, toNum_nextDate hv1] at h3
        rw [to_sql_weekday_eq]
        omega
      unfold observedDate
      rw [if_neg (by omega), if_pos hwd, hnd]
  · rintro ⟨y, hy1, hobs⟩
    unfold observedDate at hobs
    have hv1 : Valid ⟨y, 1, 1⟩ := valid_first_day hy1 (by norm_num) (by norm_num)
    by_cases h7 : to_sql_weekday (⟨y, 1, 1⟩ : Date) = 7
    · rw [if_pos h7, prevDate_jan1, Date.mk.injEq] at hobs
      obtain ⟨e1, e2, e3⟩ := hobs
      -- a valid date has year ≥ 1, so y ≥ 2 here
      have hy2 : 2 ≤ y := by
        rw [e1] at hy
        omega
      rw [e1, e2, e3]
      refine Or.inr (Or.inl ⟨rfl, rfl, ?_⟩)
      have hv31 : Valid ⟨y - 1, 12, 31⟩ :=
        ⟨by show 1 ≤ y - 1; omega, by norm_num, by norm_num, by norm_num,
          by show (31:Nat) ≤ daysInMonth (y - 1) 12; rw [daysInMonth_12]⟩
      have hnd : nextDate ⟨y - 1, 12, 31⟩ = ⟨y, 1, 1⟩ := by
        rw [nextDate_dec31, Date.mk.injEq]
        exact ⟨by omega, rfl, rfl⟩
      rw [← hnd, to_sql_weekday_eq, toNum_nextDate hv31] at h7
      rw [to_sql_weekday_eq]
      omega
    · by_cases hh1 : to_sql_weekday (⟨y, 1, 1⟩ : Date) = 1
      · rw [if_neg h7, if_pos hh1, nextDate_in_month (by rw [daysInMonth_1]; omega),
          Date.mk.injEq] at hobs
        obtain ⟨e1, e2, e3⟩ := hobs
        rw [e1, e2, e3]
        refine Or.inr (Or.inr ⟨rfl, rfl, ?_⟩)
        have hnd : nextDate ⟨y, 1, 1⟩ = ⟨y, 1, 2⟩ :=
          nextDate_in_month (by rw [daysInMonth_1]; omega)
        rw [← hnd, to_sql_weekday_eq, toNum_nextDate hv1]
        rw [to_sql_weekday_eq] at hh1
        omega
      · rw [if_neg h7, if_neg hh1, Date.mk.injEq] at hobs
        obtain ⟨e1, e2, e3⟩ := hobs
        rw [e1, e2, e3]
        have hr := to_sql_weekday_range ⟨y, 1, 1⟩
        exact Or.inl ⟨rfl, rfl, by omega, by omega⟩

/-- C6: `is_fixed_holiday` holds exactly on the observed dates of New
Year's Day, Independence Day and Christmas under the federal
weekend-shift rule; and the three cited Independence Day instances are
holidays. -/
theorem c6_is_fixed_holiday :
    (∀ d : Date, Valid d → (is_fixed_holiday d = true ↔ specFixedHoliday d))
      ∧ is_holiday ⟨2022, 7, 4⟩ = true
      ∧ is_holiday ⟨2021, 7, 5⟩ = true
      ∧ is_holiday ⟨2020, 7, 3⟩ = true := by
  refine ⟨?_, by decide, by decide, by decide⟩
  intro d hd
  unfold is_fixed_holiday
  simp only [Bool.or_eq_true, Bool.and_eq_true, beq_iff_eq, decide_eq_true_eq]
  unfold specFixedHoliday
  rw [or_assoc]
  refine or_congr ?_ (or_congr ?_ ?_)
  · rw [← observedNY_iff hd]
    omega
  · rw [← @observed_mid_iff d hd 7 4 (by norm_num) (by norm_num) (by norm_num) (by norm_num)]
    omega
  · rw [← @observed_mid_iff d hd 12 25 (by norm_num) (by norm_num) (by norm_num) (by norm_num)]
    omega

/-- Witness for C6's universally quantified part at 2022-07-04. -/
theorem c6_is_fixed_holiday_witness :
    is_fixed_holiday ⟨2022, 7, 4⟩ = true ↔ specFixedHoliday ⟨2022, 7, 4⟩ :=
  c6_is_fixed_holiday.1 ⟨2022, 7, 4⟩ (by decide)

/-- C5 counterexample: 2023-01-01 is a Sunday — the first Sunday of 2023 —
so the claimed convention assigns it week 1, but `get_cy_week`
(`int(strftime("%U")) + 1`) assigns 2. -/
theorem c5_cy_week_counterexample :
    (mkDateRow ⟨2023, 1, 1⟩).cyWeek = 2 ∧ specWeekNumber ⟨2023, 1, 1⟩ = 1 := by
  refine ⟨by decide, by decide⟩

/-- Day-of-year pins down the day number: `toNum(Jan 1) + cy_day = toNum d + 1`. -/
theorem toNum_jan1_add_cy_day {d : Date} (hd : Valid d) :
    (Date.mk d.year 1 1).toNum + get_cy_day d = d.toNum + 1 := by
  obtain ⟨y, m, dd⟩ := d
  obtain ⟨h1, h2, h3, h4, h5⟩ := hd
  dsimp only at h1 h2 h3 h4 h5 ⊢
  have hg := yearNum_step y h1
  by_cases hl : isleap y = true
  · rw [if_pos hl] at hg
    interval_cases m <;>
      norm_num [Date.toNum, shiftedYear, get_cy_day, daysBeforeMonth, daysInMonth, hl] at h5 ⊢ <;>
      omega
  · rw [if_neg hl] at hg
    rw [Bool.not_eq_true] at hl
    interval_cases m <;>
      norm_num [Date.toNum, shiftedYear, get_cy_day, daysBeforeMonth, daysInMonth, hl] at h5 ⊢ <;>
      omega

/-- Counting Sundays among the first `yd` days of a year whose January 1
has day number `a`: the `%U + 1` formula equals the Sunday count plus
one. -/
theorem sunday_count_formula (a : Nat) :
    ∀ yd : Nat, 1 ≤ yd →
      (yd - 1 + 7 - (a + (yd - 1) + 3) % 7) / 7 + 1
        = (List.range yd).countP (fun j => (a + j + 3) % 7 == 0) + 1 := by
  intro yd
  induction yd with
  | zero => intro h; omega
  | succ n ih =>
    intro _
    rw [List.range_succ, List.countP_append]
    simp only [List.countP_cons, List.countP_nil]
    by_cases hn : 1 ≤ n
    · have hihn := ih hn
      by_cases hp : (a + n + 3) % 7 = 0
      · simp only [hp, beq_self_eq_true, if_pos]
        omega
      · rw [if_neg (by simpa using hp)]
        omega
    · have hn0 : n = 0 := by omega
      subst hn0
      simp only [List.range_zero, List.countP_nil]
      by_cases hp : (a + 0 + 3) % 7 = 0
      · simp only [hp, beq_self_eq_true, if_pos]
      · rw [if_neg (by simpa using hp)]
        omega

/-- C5 amended: the calendar-week number assigned to a date row is one
MORE than the claimed convention's count: `CYWeek = (number of Sundays of
the year on/before d) + 1`, i.e. the days before the first Sunday get
week 1 and the first Sunday starts week 2 — not week 1 as the claim
states. -/
theorem c5_cy_week_off_by_one (d : Date) (hd : Valid d) :
    (mkDateRow d).cyWeek = specWeekNumber d + 1 := by
  have hv1 : Valid ⟨d.year, 1, 1⟩ := valid_first_day hd.1 (by norm_num) (by norm_num)
  have hjan := toNum_jan1_add_cy_day hd
  have hcy1 : 1 ≤ get_cy_day d := by
    unfold get_cy_day
    have := hd.2.2.2.1
    omega
  show get_cy_week d = specWeekNumber d + 1
  unfold get_cy_week specWeekNumber
  have hpred : ∀ j ∈ List.range (get_cy_day d),
      ((to_sql_weekday (addDays ⟨d.year, 1, 1⟩ j) == 1) = true ↔
        (((Date.mk d.year 1 1).toNum + j + 3) % 7 == 0) = true) := by
    intro j _
    simp only [beq_iff_eq]
    rw [to_sql_weekday_addDays hv1]
    omega
  rw [List.countP_congr hpred]
  have hform := sunday_count_formula (Date.mk d.year 1 1).toNum (get_cy_day d) hcy1
  have hiso : isoweekday d % 7 = (d.toNum + 3) % 7 := by
    unfold isoweekday
    omega
  rw [hiso]
  omega

/-- Witness for C5's amended theorem at 2024-03-05. -/
theorem c5_cy_week_off_by_one_witness :
    (mkDateRow ⟨2024, 3, 5⟩).cyWeek = specWeekNumber ⟨2024, 3, 5⟩ + 1 :=
  c5_cy_week_off_by_one ⟨2024, 3, 5⟩ (by decide)

/-- Closed form of the day number of January 1. -/
theorem toNum_jan1 (y : Nat) :
    (Date.mk y 1 1).toNum
      = 365 * (y - 1) + (y - 1) / 4 - (y - 1) / 100 + (y - 1) / 400 + 306 := by
  simp only [Date.toNum, shiftedYear]
  norm_num

/-- January 1 day numbers step by the length of the year just ended. -/
theorem toNum_jan1_succ (y : Nat) (hy : 1 ≤ y) :
    (Date.mk (y + 1) 1 1).toNum
      = (Date.mk y 1 1).toNum + (if isleap y then 366 else 365) := by
  have h := yearNum_step y hy
  rw [toNum_jan1, toNum_jan1]
  set s := (if isleap y then 366 else 365) with hs
  omega

/-- January 1 day numbers are strictly increasing in the year. -/
theorem toNum_jan1_lt {y z : Nat} (hy : 1 ≤ y) (hyz : y < z) :
    (Date.mk y 1 1).toNum < (Date.mk z 1 1).toNum := by
  induction z with
  | zero => omega
  | succ n ih =>
    have hn : 1 ≤ n := by omega
    have hs := toNum_jan1_succ n hn
    have h365 : (Date.mk n 1 1).toNum + 365 ≤ (Date.mk (n + 1) 1 1).toNum := by
      rw [hs]
      split <;> omega
    rcases Nat.lt_succ_iff_lt_or_eq.mp hyz with h | h
    · have := ih h
      omega
    · subst h
      omega

/-- January 1 day numbers are monotone in the year. -/
theorem toNum_jan1_le {y z : Nat} (hy : 1 ≤ y) (hyz : y ≤ z) :
    (Date.mk y 1 1).toNum ≤ (Date.mk z 1 1).toNum := by
  rcases Nat.lt_or_ge y z with h | h
  · exact le_of_lt (toNum_jan1_lt hy h)
  · have heq : y = z := by omega
    subst heq
    exact le_refl _

/-- The length of the year, as a difference of January 1 day numbers. -/
theorem toNum_jan1_diff (y : Nat) (hy : 1 ≤ y) :
    (Date.mk (y + 1) 1 1).toNum - (Date.mk y 1 1).toNum
      = (if isleap y then 366 else 365) := by
  have h := toNum_jan1_succ y hy
  set s := (if isleap y then 366 else 365) with hs
  omega

/-- December 31 is the eve of the next January 1. -/
theorem toNum_dec31_succ {b : Nat} (hb : 1 ≤ b) :
    (Date.mk b 12 31).toNum + 1 = (Date.mk (b + 1) 1 1).toNum := by
  have hvb : Valid (Date.mk b 12 31) :=
    ⟨hb, by norm_num, by norm_num, by norm_num, by rw [daysInMonth_12]⟩
  have h := toNum_nextDate hvb
  rw [nextDate_dec31] at h
  omega

/-- Day-of-year never exceeds the length of the year. -/
theorem get_cy_day_le {d : Date} (hd : Valid d) :
    get_cy_day d ≤ (if isleap d.year then 366 else 365) := by
  obtain ⟨y, m, dd⟩ := d
  obtain ⟨h1, h2, h3, h4, h5⟩ := hd
  dsimp only at h1 h2 h3 h4 h5 ⊢
  by_cases hl : isleap y = true
  · interval_cases m <;>
      norm_num [get_cy_day, daysBeforeMonth, daysInMonth, hl] at h5 ⊢ <;> omega
  · rw [Bool.not_eq_true] at hl
    interval_cases m <;>
      norm_num [get_cy_day, daysBeforeMonth, daysInMonth, hl] at h5 ⊢ <;> omega

/-- A valid date's day number falls in its own calendar-year window. -/
theorem year_window {d : Date} (hd : Valid d) :
    (Date.mk d.year 1 1).toNum ≤ d.toNum
      ∧ d.toNum < (Date.mk (d.year + 1) 1 1).toNum := by
  have hj := toNum_jan1_add_cy_day hd
  have hle := get_cy_day_le hd
  have hs := toNum_jan1_succ d.year hd.1
  have h1 : 1 ≤ get_cy_day d := by
    have h4 := hd.2.2.2.1
    unfold get_cy_day
    omega
  set s := (if isleap d.year then 366 else 365) with hsdef
  omega

/-- A valid date whose day number falls in year `y`'s window has year `y`. -/
theorem year_eq_of_window {d : Date} (hd : Valid d) {y : Nat}
    (h1 : (Date.mk y 1 1).toNum ≤ d.toNum)
    (h2 : d.toNum < (Date.mk (y + 1) 1 1).toNum) :
    d.year = y := by
  have hw := year_window hd
  by_contra hne
  rcases Nat.lt_or_ge d.year y with h | h
  · have hle : (Date.mk (d.year + 1) 1 1).toNum ≤ (Date.mk y 1 1).toNum :=
      toNum_jan1_le (by omega) (by omega)
    omega
  · have hgt : y < d.year := by omega
    have hle : (Date.mk (y + 1) 1 1).toNum ≤ (Date.mk d.year 1 1).toNum :=
      toNum_jan1_le (by omega) (by omega)
    omega

/-- Year-window characterization as an equivalence. -/
theorem year_eq_iff_window {d : Date} (hd : Valid d) (y : Nat) :
    d.year = y ↔
      ((Date.mk y 1 1).toNum ≤ d.toNum
        ∧ d.toNum < (Date.mk (y + 1) 1 1).toNum) := by
  constructor
  · intro h
    have hw := year_window hd
    rw [h] at hw
    exact hw
  · intro h
    exact year_eq_of_window hd h.1 h.2

/-- Splitting a count over a Boolean case distinction on a second test. -/
theorem countP_bool_split {α : Type} (l : List α) (p q : α → Bool) :
    l.countP (fun x => !p x && q x) + l.countP (fun x => p x && q x)
      = l.countP q := by
  induction l with
  | nil => rfl
  | cons a t ih =>
    cases hp : p a <;> cases hq : q a <;>
      simp [List.countP_cons, hp, hq] <;>
      omega

/-- Counting the positions of an initial segment that land in a half-open
interval of day numbers. -/
theorem countP_range_window (s0 lo hi : Nat) (hlo : s0 ≤ lo) (hlohi : lo ≤ hi) :
    ∀ N : Nat,
      (List.range N).countP
          (fun k => decide (lo ≤ s0 + k) && decide (s0 + k < hi))
        = min (s0 + N) hi - min (s0 + N) lo := by
  intro N
  induction N with
  | zero =>
    simp only [List.range_zero, List.countP_nil]
    omega
  | succ n ih =>
    rw [List.range_succ, List.countP_append, ih]
    simp only [List.countP_cons, List.countP_nil]
    by_cases h1 : lo ≤ s0 + n <;> by_cases h2 : s0 + n < hi <;>
      simp [h1, h2] <;> omega

/-- The consecutive-dates list is `addDays` mapped over an index range. -/
theorem dateListFrom_eq_map (n : Nat) :
    ∀ d : Date, dateListFrom d n = (List.range n).map (addDays d) := by
  induction n with
  | zero => intro d; rfl
  | succ m ih =>
    intro d
    show d :: dateListFrom (nextDate d) m = _
    rw [ih (nextDate d), List.range_succ_eq_map, List.map_cons, List.map_map]
    refine congrArg₂ List.cons rfl ?_
    refine List.map_congr_left ?_
    intro k _
    rw [addDays_nextDate]
    rfl

/-- In a table of full calendar years, each year `y` between the bounds
contributes exactly its calendar length of dates. -/
theorem countP_year_full {a b y : Nat} (ha : 1 ≤ a) (hay : a ≤ y) (hyb : y ≤ b) :
    ((dateListFrom ⟨a, 1, 1⟩
        ((Date.mk b 12 31).toNum + 1 - (Date.mk a 1 1).toNum)).countP
        (fun d => d.year == y))
      = (Date.mk (y + 1) 1 1).toNum - (Date.mk y 1 1).toNum := by
  have hva : Valid (Date.mk a 1 1) := valid_first_day ha (by norm_num) (by norm_num)
  rw [dateListFrom_eq_map, List.countP_map]
  have hcg : ∀ k ∈ List.range ((Date.mk b 12 31).toNum + 1 - (Date.mk a 1 1).toNum),
      (((fun d => d.year == y) ∘ addDays ⟨a, 1, 1⟩) k = true ↔
        (decide ((Date.mk y 1 1).toNum ≤ (Date.mk a 1 1).toNum + k)
          && decide ((Date.mk a 1 1).toNum + k < (Date.mk (y + 1) 1 1).toNum)) = true) := by
    intro k _
    have hvk : Valid (addDays ⟨a, 1, 1⟩ k) := valid_addDays hva k
    have htn : (addDays ⟨a, 1, 1⟩ k).toNum = (Date.mk a 1 1).toNum + k :=
      toNum_addDays hva k
    simp only [Function.comp_apply, beq_iff_eq, Bool.and_eq_true, decide_eq_true_eq]
    rw [year_eq_iff_window hvk y, htn]
  rw [List.countP_congr hcg]
  rw [countP_range_window (Date.mk a 1 1).toNum (Date.mk y 1 1).toNum
    (Date.mk (y + 1) 1 1).toNum (toNum_jan1_le ha hay) (toNum_jan1_le (by omega) (by omega))]
  have hd31 := toNum_dec31_succ (show 1 ≤ b by omega)
  have hs0 : (Date.mk a 1 1).toNum ≤ (Date.mk (b + 1) 1 1).toNum :=
    toNum_jan1_le ha (by omega)
  have h1 : (Date.mk (y + 1) 1 1).toNum ≤ (Date.mk (b + 1) 1 1).toNum :=
    toNum_jan1_le (by omega) (by omega)
  have h2 : (Date.mk y 1 1).toNum ≤ (Date.mk (y + 1) 1 1).toNum :=
    toNum_jan1_le (by omega) (by omega)
  clear hcg hva ha hay hyb
  omega

/-- Any year appearing in a full-years table lies between the bounds. -/
theorem year_mem_range {a b y : Nat} (ha : 1 ≤ a) (hab : a ≤ b)
    (hy : y ∈ (create_dates ⟨a, 1, 1⟩ ⟨b, 12, 31⟩).map (fun r => r.dateYear)) :
    a ≤ y ∧ y ≤ b := by
  have hva : Valid (Date.mk a 1 1) := valid_first_day ha (by norm_num) (by norm_num)
  unfold create_dates at hy
  rw [dateListFrom_eq_map] at hy
  simp only [List.map_map, List.mem_map, List.mem_range, Function.comp_apply] at hy
  obtain ⟨k, hk, hky⟩ := hy
  simp only [mkDateRow] at hky
  have hvk : Valid (addDays ⟨a, 1, 1⟩ k) := valid_addDays hva k
  have htn : (addDays ⟨a, 1, 1⟩ k).toNum = (Date.mk a 1 1).toNum + k :=
    toNum_addDays hva k
  have hw := year_window hvk
  rw [hky, htn] at hw
  have hd31 := toNum_dec31_succ (show 1 ≤ b by omega)
  have hs0 : (Date.mk a 1 1).toNum ≤ (Date.mk (b + 1) 1 1).toNum :=
    toNum_jan1_le ha (by omega)
  constructor
  · rcases Nat.lt_or_ge y a with hlt | hge
    · exfalso
      have hle : (Date.mk (y + 1) 1 1).toNum ≤ (Date.mk a 1 1).toNum :=
        toNum_jan1_le (by omega) (by omega)
      clear ha hab hva hky htn hvk hlt hk
      omega
    · exact hge
  · rcases Nat.lt_or_ge b y with hgt | hge
    · exfalso
      have hle : (Date.mk (b + 1) 1 1).toNum ≤ (Date.mk y 1 1).toNum :=
        toNum_jan1_le (by omega) (by omega)
      clear ha hab hva hky htn hvk hgt
      omega
    · exact hge

/-- C8 counterexample: on the one-week table 2020-06-29..2020-07-05 the
Years table has a 2020 row (the week contains a workday, the observed
Independence Day, weekdays and a weekend), yet its weekday and weekend
counts sum to 7, not to `totalDays` = 366. -/
theorem c8_partition_counterexample :
    ∃ r ∈ get_years (create_dates ⟨2020, 6, 29⟩ ⟨2020, 7, 5⟩) [],
      r.weekDays + r.weekendDays ≠ r.totalDays := by
  have hfin : ((create_dates ⟨2020, 6, 29⟩ ⟨2020, 7, 5⟩).map
      (fun r => r.dateYear)).toFinset = {2020} := by decide
  unfold get_years
  rw [hfin, Finset.sort_singleton]
  decide

/-- C8 amended: the partition `weekDays + weekendDays = totalDays` (366 in
leap years, 365 otherwise) holds for the rows of the Years table whenever
the date table covers full calendar years (`create_dates` from a January 1
to a December 31), not for every input date table. -/
theorem c8_weekday_weekend_partition (a b : Nat) (pps : List PayPeriodRec)
    (ha : 1 ≤ a) (hab : a ≤ b) :
    (get_years (create_dates ⟨a, 1, 1⟩ ⟨b, 12, 31⟩) pps).Forall (fun r =>
      r.weekDays + r.weekendDays = r.totalDays
        ∧ r.totalDays = (if isleap r.yearYear then 366 else 365)) := by
  rw [List.forall_iff_forall_mem]
  intro r hr
  unfold get_years at hr
  simp only [List.mem_filterMap] at hr
  obtain ⟨y, hy, hf⟩ := hr
  simp only [Finset.mem_sort, List.mem_toFinset] at hy
  obtain ⟨hay, hyb⟩ := year_mem_range ha hab hy
  split at hf
  · have hrec := Option.some.inj hf
    subst hrec
    dsimp only
    constructor
    · rw [← List.countP_eq_length_filter, ← List.countP_eq_length_filter,
        countP_bool_split (create_dates ⟨a, 1, 1⟩ ⟨b, 12, 31⟩)
          (fun r => r.isWeekend) (fun r => r.dateYear == y)]
      unfold create_dates
      rw [List.countP_map]
      have hmk : ∀ x ∈ dateListFrom (⟨a, 1, 1⟩ : Date)
          ((Date.mk b 12 31).toNum + 1 - (Date.mk a 1 1).toNum),
          (((fun r => r.dateYear == y) ∘ mkDateRow) x = true ↔ (x.year == y) = true) := by
        intro x _
        simp [mkDateRow]
      rw [List.countP_congr hmk]
      rw [countP_year_full ha hay hyb, toNum_jan1_diff y (by omega)]
      rfl
    · rfl
  · exact absurd hf (by simp)

/-- C8 witness: the partition at the full single-year table of 2020. -/
theorem c8_weekday_weekend_partition_witness :
    (get_years (create_dates ⟨2020, 1, 1⟩ ⟨2020, 12, 31⟩) []).Forall (fun r =>
      r.weekDays + r.weekendDays = r.totalDays
        ∧ r.totalDays = (if isleap r.yearYear then 366 else 365)) :=
  c8_weekday_weekend_partition 2020 2020 [] (by norm_num) (by norm_num)

/-- A filtered list has nonzero length exactly when a member passes. -/
theorem filter_length_ne_zero {α : Type} (l : List α) (p : α → Bool) :
    ((l.filter p).length != 0) = true ↔ ∃ x ∈ l, p x = true := by
  constructor
  · intro h
    rcases hne : l.filter p with _ | ⟨x, t⟩
    · rw [hne] at h
      simp at h
    · have hx : x ∈ l.filter p := by
        rw [hne]
        exact List.mem_cons_self x t
      rcases List.mem_filter.mp hx with ⟨hmem, hp⟩
      exact ⟨x, hmem, hp⟩
  · rintro ⟨x, hx, hp⟩
    have hmem : x ∈ l.filter p := List.mem_filter.mpr ⟨hx, hp⟩
    have hlen : 0 < (l.filter p).length := List.length_pos_of_mem hmem
    simp only [bne_iff_ne, ne_eq]
    omega

/-- Mapping a projection over a guarded `filterMap` keeps the guard as a
plain filter when the projection recovers the key. -/
theorem map_filterMap_if {α : Type} (g : α → Nat) (F : Nat → α) (c : Nat → Bool)
    (hF : ∀ y, c y = true → g (F y) = y) :
    ∀ l : List Nat,
      (l.filterMap (fun y => if c y then some (F y) else none)).map g = l.filter c := by
  intro l
  induction l with
  | nil => rfl
  | cons x t ih =>
    cases hc : c x <;>
      simp [List.filterMap_cons, List.filter_cons, hc, ih, hF x]

/-- The years of the Years table are the distinct years of the date table
that survive the four inner joins. -/
theorem get_years_map_years (dates : List DateRow) (pps : List PayPeriodRec) :
    (get_years dates pps).map (fun r => r.yearYear)
      = ((dates.map (fun r => r.dateYear)).toFinset.sort (· ≤ ·)).filter
          (fun y =>
            (dates.filter (fun r => r.isWorkDay && r.dateYear == y)).length != 0
            && (dates.filter (fun r => r.isHoliday && r.dateYear == y)).length != 0
            && (dates.filter (fun r => !r.isWeekend && r.dateYear == y)).length != 0
            && (dates.filter (fun r => r.isWeekend && r.dateYear == y)).length != 0) := by
  exact map_filterMap_if _ _ _ (fun y _ => rfl) _

/-- C9 counterexample: the one-day table for 2020-06-01 (a Monday) has the
distinct year 2020, but the Years table is empty — the groupby/inner-join
chain drops every year with no weekend rows (or no holidays). -/
theorem c9_dropped_year_counterexample :
    get_years (create_dates ⟨2020, 6, 1⟩ ⟨2020, 6, 1⟩) [] = []
      ∧ (create_dates ⟨2020, 6, 1⟩ ⟨2020, 6, 1⟩).map (fun r => r.dateYear) = [2020] := by
  constructor
  · have hfin : ((create_dates ⟨2020, 6, 1⟩ ⟨2020, 6, 1⟩).map
        (fun r => r.dateYear)).toFinset = {2020} := by decide
    unfold get_years
    rw [hfin, Finset.sort_singleton]
    decide
  · decide

/-- C9 amended: the Years table has at most one row per year, in strictly
ascending year order; a year `y` gets a row exactly when the date table has
a workday row, a holiday row, a non-weekend row AND a weekend row of that
year (years failing any of the four inner joins are dropped, contrary to
the claim); and each present row's pay-period count is the number of pay
periods whose start year is `y` (0 when none, per the left join). -/
theorem c9_get_years_rows (dates : List DateRow) (pps : List PayPeriodRec) :
    ((get_years dates pps).map (fun r => r.yearYear)).Sorted (· < ·)
    ∧ (∀ y : Nat,
        (∃ r ∈ get_years dates pps, r.yearYear = y) ↔
          ((∃ r ∈ dates, r.isWorkDay = true ∧ r.dateYear = y)
            ∧ (∃ r ∈ dates, r.isHoliday = true ∧ r.dateYear = y)
            ∧ (∃ r ∈ dates, r.isWeekend = false ∧ r.dateYear = y)
            ∧ (∃ r ∈ dates, r.isWeekend = true ∧ r.dateYear = y)))
    ∧ (∀ r ∈ get_years dates pps,
        r.payPeriods = (pps.filter (fun p => p.yearStart == r.yearYear)).length) := by
  refine ⟨?_, ?_, ?_⟩
  · rw [get_years_map_years]
    exact (Finset.sort_sorted_lt _).filter _
  · intro y
    rw [← List.mem_map, get_years_map_years, List.mem_filter]
    simp only [Bool.and_eq_true, filter_length_ne_zero, Finset.mem_sort,
      List.mem_toFinset, List.mem_map, Bool.not_eq_true', beq_iff_eq]
    constructor
    · rintro ⟨hm, hc⟩
      exact ⟨hc.1.1.1, hc.1.1.2, hc.1.2, hc.2⟩
    · rintro ⟨⟨r, hr, hw1, hry⟩, h2, h3, h4⟩
      exact ⟨⟨r, hr, hry⟩, ⟨⟨⟨r, hr, hw1, hry⟩, h2⟩, h3⟩, h4⟩
  · intro r hr
    unfold get_years at hr
    simp only [List.mem_filterMap] at hr
    obtain ⟨y, _, hf⟩ := hr
    split at hf
    · have hrec := Option.some.inj hf
      subst hrec
      rfl
    · exact absurd hf (by simp)

end SqlDates
